import Mathlib

/-!
# Verification of the `trans_city` engine (`src/trans_city/TransCity.cc`)

A shallow embedding of the MAgent `trans_city` core engine.  The engine
state (`TransCity`) and every operation the claims touch are translated
from `TransCity.cc`.  Declarations whose bodies live in the missing
header `TransCity.h` (the `Agent` constructor, `Agent::get_embedding`,
`ACT_NUM`, `Agent::init_reward`) are modelled from the specification and
carry a doc comment starting with `Modelled from the spec:`.

Machine integers are modelled as `Int` (no arithmetic in the engine can
overflow 32-bit in the scenarios of the claims); C++ `%` on `int` is
truncated division, i.e. `Int.tmod`.
-/

namespace TransCityModel

/-- Integer grid coordinate, `struct Position {int x; int y;}`. -/
structure Position where
  x : Int
  y : Int
deriving DecidableEq, Repr

/-- Modelled from the spec: the per-light record
`(position, orientation, phase-duration interval, elapsed-tick counter)`;
`TrafficLight(pos, dir, offset, interval)` in the missing header stores the
constructor arguments.  The elapsed counter starts at 0. -/
structure TrafficLight where
  pos : Position
  dir : Int
  offset : Int
  interval : Int
  elapsed : Int
deriving DecidableEq, Repr

/-- Source `Park(Position, w, h)`: a rectangular area marker. -/
structure Park where
  pos : Position
  w : Int
  h : Int
deriving DecidableEq, Repr

/-- Source `Building(Position, w, h)`: an axis-aligned rectangle of wall cells. -/
structure Building where
  pos : Position
  w : Int
  h : Int
deriving DecidableEq, Repr

/-- Modelled from the spec: the agent record of the missing header —
"unique monotonically increasing id", current Position, goal Position,
last action taken, last reward, reward accumulator, a fixed-size opaque
embedding (held as a list read up to `embedding_size`), a liveness flag
(`dead`). -/
structure Agent where
  id : Int
  pos : Position
  goal : Position
  action : Nat
  last_reward : Int
  reward : Int
  dead : Bool
  embedding : List Int
deriving DecidableEq, Repr

/-- Modelled from the spec: `ACT_NUM`, the fixed action-space size from the
missing header ("a small fixed set of grid moves, e.g.
stay/up/down/left/right").  Its exact value is irrelevant to every claim;
we fix the five grid moves. -/
def ACT_NUM : Nat := 5

/-- The engine state: the fields of class `TransCity` that the claims
read or write.  `mapWalls` is the set of cells the Spatial Map currently
tags as wall (via `map.add_wall`); `mapAgents` the cells occupied by
agents (via `map.add_agent`). -/
structure TransCity where
  width : Int
  height : Int
  embedding_size : Nat
  interval_min : Int
  interval_max : Int
  id_counter : Int
  agents : List Agent
  walls : List Position
  lights : List TrafficLight
  parks : List Park
  buildings : List Building
  mapWalls : List Position
  mapAgents : List Position
  mapLights : List Position
  mapParks : List Position
deriving DecidableEq, Repr

/-- Constructor `TransCity::TransCity()`: width = height = 100, embedding_size = 16,
interval_min = 10, interval_max = 20; all containers empty.  The
constructor does not initialise `id_counter`; following the spec
("assigned at creation" from a fresh counter) we take it as 0, the value
`reset` establishes. -/
def TransCity.init : TransCity :=
  { width := 100, height := 100, embedding_size := 16
    interval_min := 10, interval_max := 20, id_counter := 0
    agents := [], walls := [], lights := [], parks := [], buildings := []
    mapWalls := [], mapAgents := [], mapLights := [], mapParks := [] }

/-- Modelled from the spec: the `Agent` constructor of the missing header,
invoked as `new Agent(id_counter)` — it assigns the agent a "unique
monotonically increasing id (assigned at creation, never reused)", i.e. it
takes the counter by reference, records its current value as the id and
increments it.  The dead flag starts false and the reward accumulators
neutral; position and goal are set separately (`set_pos`). -/
def Agent.create (idc : Int) : Agent × Int :=
  ({ id := idc, pos := ⟨0, 0⟩, goal := ⟨0, 0⟩, action := 0
     last_reward := 0, reward := 0, dead := false, embedding := [] }, idc + 1)

/-- Modelled from the spec: `Agent::init_reward` — "have their reward
accumulator reset to a neutral value for the next tick". -/
def Agent.init_reward (a : Agent) : Agent :=
  { a with reward := 0, last_reward := 0 }

/-- Source `Map::reset(walls, width, height)`: reseeds the occupancy from the
recorded wall list only (spec §3 lifecycle); agent occupancy is dropped. -/
def mapReset (walls : List Position) : List Position := walls

/-- Source `TransCity::reset()`: sets `id_counter = 0`, calls
`map.reset(walls, width, height)`, and `delete`s each `agents[i]` —
but never shrinks `agents`, so the list keeps its length (the freed
objects stay referenced; spec §9 records this observed behaviour). -/
def TransCity.reset (s : TransCity) : TransCity :=
  { s with id_counter := 0, mapWalls := mapReset s.walls, mapAgents := [] }

/-- Source `TransCity::step(int *done)`: the body is empty — no field is read or
written and `*done` is never assigned.  We pass the `done` cell through. -/
def TransCity.step (s : TransCity) (done : Int) : TransCity × Int :=
  (s, done)

/-- The compaction loop of `TransCity::clear_dead`: one pass over
`agents`; a dead agent is deleted (dropped), a survivor gets
`init_reward()` and is written at the next compaction slot `pt`; finally
`agents.resize(pt)`.  Writing survivors in order into a prefix and
resizing is exactly this recursion. -/
def clearDeadLoop : List Agent → List Agent
  | [] => []
  | a :: rest =>
      if a.dead then clearDeadLoop rest
      else a.init_reward :: clearDeadLoop rest

/-- Source `TransCity::clear_dead()`. -/
def TransCity.clear_dead (s : TransCity) : TransCity :=
  { s with agents := clearDeadLoop s.agents }

/-- Source `TransCity::get_info(group, "num", buf)`: for group 0 (car) writes
`agents.size()`; for group -1 (wall) writes 0. -/
def TransCity.get_info_num (s : TransCity) (group : Int) : Int :=
  if group = 0 then (s.agents.length : Int)
  else if group = -1 then 0
  else 0

/-- Source `TransCity::get_feature_size_`:
`embedding_size + ACT_NUM + 1 + 2` ("embedding + last_action +
last_reward + goal"). -/
def TransCity.get_feature_size_ (s : TransCity) : Nat :=
  s.embedding_size + ACT_NUM + 1 + 2

/-- Source `TransCity::get_info(group, "feature_space", buf)`. -/
def TransCity.get_info_feature_space (s : TransCity) : Nat :=
  s.get_feature_size_

/-! ## Bulk object injection (`TransCity::add_object`) -/

/-- Indexing of `NDPointer<const int, 2>` on a row-major buffer with row
width `roww`: `buf.at(i, j) = linear_buffer[i*roww + j]`.  An
out-of-bounds C++ read is unspecified; we model it as 0 (no claim
depends on out-of-bounds contents except where stated explicitly). -/
def ndAt2 (buf : List Int) (roww i j : Nat) : Int :=
  buf.getD (roww * i + j) 0

/-- The ill-formed three-index access `buf.at(i, 0, buf.at(i, 1))` on the
2-D pointer at `TransCity.cc:76`, modelled under row-major addressing with
innermost stride 1: `data[i*roww + j + k]`.  (As written the call does not
match the 2-D accessor's arity; under any concrete reading it collapses to
a single scalar, which then brace-initialises `Position`, zero-filling
`y`.) -/
def ndAt3 (buf : List Int) (roww i j : Nat) (k : Int) : Int :=
  buf.getD (roww * i + j + k.toNat) 0

/-- The wall branch (`obj_id == -1`, method `"custom"`), row layout
`{x, y}`: cell `i` is `map.add_wall(Position{buf.at(i,0), buf.at(i,1)})`
while the recorded wall list receives
`Position{buf.at(i, 0, buf.at(i, 1))}` — a `Position` built from the
single scalar of the ill-formed access, with `y` zero-initialised. -/
def TransCity.add_walls_custom (s : TransCity) (n : Nat) (buf : List Int) : TransCity :=
  { s with
    mapWalls := s.mapWalls ++
      (List.range n).map (fun i => Position.mk (ndAt2 buf 2 i 0) (ndAt2 buf 2 i 1))
    walls := s.walls ++
      (List.range n).map (fun i => Position.mk (ndAt3 buf 2 i 0 (ndAt2 buf 2 i 1)) 0) }

/-- The draw `static_cast<int>(random_engine()) % (interval_max - interval_min)
+ interval_min` — `r` is the engine output cast to `int` (any 32-bit
value, so possibly negative); C++ `%` on `int` is truncated modulo
(`Int.tmod`). -/
def light_interval_draw (r imin imax : Int) : Int :=
  Int.tmod r (imax - imin) + imin

/-- The light branch (`obj_id == -2`, method `"custom"`), row layout
`{x, y, orientation, offset}`: light `i` is added to the map and the
interval is drawn once from the engine (`rs` is the stream of successive
`static_cast<int>(random_engine())` values, one per light). -/
def TransCity.add_lights_custom (s : TransCity) (n : Nat) (buf : List Int)
    (rs : List Int) : TransCity :=
  { s with
    mapLights := s.mapLights ++
      (List.range n).map (fun i => Position.mk (ndAt2 buf 4 i 0) (ndAt2 buf 4 i 1))
    lights := s.lights ++
      (List.range n).map (fun i =>
        TrafficLight.mk (Position.mk (ndAt2 buf 4 i 0) (ndAt2 buf 4 i 1))
          (ndAt2 buf 4 i 2) (ndAt2 buf 4 i 3)
          (light_interval_draw (rs.getD i 0) s.interval_min s.interval_max) 0) }

/-- The park branch (`obj_id == -3`, method `"custom"`), row layout
`{x, y, w, h}`. -/
def TransCity.add_parks_custom (s : TransCity) (n : Nat) (buf : List Int) : TransCity :=
  { s with
    mapParks := s.mapParks ++
      (List.range n).map (fun i => Position.mk (ndAt2 buf 4 i 0) (ndAt2 buf 4 i 1))
    parks := s.parks ++
      (List.range n).map (fun i =>
        Park.mk (Position.mk (ndAt2 buf 4 i 0) (ndAt2 buf 4 i 1))
          (ndAt2 buf 4 i 2) (ndAt2 buf 4 i 3)) }

/-- The cells `map.add_wall` marks for one building row `{x0, y0, w, h}`:
`x` from `x0` to `x0 + w - 1` (outer loop), `y` from `y0` to
`y0 + h - 1` (inner loop). -/
def buildingCells (x0 y0 w h : Int) : List Position :=
  (List.range w.toNat).flatMap (fun dx =>
    (List.range h.toNat).map (fun dy => Position.mk (x0 + dx) (y0 + dy)))

/-- The building branch (`obj_id == -4`, method `"custom"`), row layout
`{x0, y0, w, h}`: each row materialises as a block of wall cells. -/
def TransCity.add_buildings_custom (s : TransCity) (n : Nat) (buf : List Int) : TransCity :=
  { s with
    mapWalls := s.mapWalls ++
      (List.range n).flatMap (fun i =>
        buildingCells (ndAt2 buf 4 i 0) (ndAt2 buf 4 i 1)
          (ndAt2 buf 4 i 2) (ndAt2 buf 4 i 3))
    buildings := s.buildings ++
      (List.range n).map (fun i =>
        Building.mk (Position.mk (ndAt2 buf 4 i 0) (ndAt2 buf 4 i 1))
          (ndAt2 buf 4 i 2) (ndAt2 buf 4 i 3)) }

/-- The car creation loop shared by both placement methods: for each
position, `new Agent(id_counter)` then `set_pos`; returns the created
agents in order and the final counter. -/
def addCarsLoop (idc : Int) : List Position → List Agent × Int
  | [] => ([], idc)
  | p :: ps =>
      let ai := Agent.create idc
      let rest := addCarsLoop ai.2 ps
      ({ ai.1 with pos := p } :: rest.1, rest.2)

/-- The car branch (`obj_id == 0`): agents are pushed onto `agents` and
their cells onto the map (`map.add_agent`). -/
def TransCity.add_cars (s : TransCity) (positions : List Position) : TransCity :=
  let created := addCarsLoop s.id_counter positions
  { s with agents := s.agents ++ created.1
           id_counter := created.2
           mapAgents := s.mapAgents ++ positions }

/-- Dispatch of `TransCity::add_object(obj_id, n, method, linear_buffer)`.  `none`
models `LOG(FATAL)` (process abort); `some` is normal return.  `rs` is
the stream of engine draws consumed by the light branch, `blanks` the
stream of cells `map.get_random_blank` returns for random car placement.
Note the control flow of the source: the four static categories have no
`else` on their method test, and there is no trailing `else` for an
unrecognised `obj_id` — both fall through and return normally with the
state untouched; only an unknown method for cars hits `LOG(FATAL)`. -/
def TransCity.add_object (s : TransCity) (obj_id : Int) (n : Nat) (method : String)
    (buf : List Int) (rs : List Int) (blanks : List Position) : Option TransCity :=
  if obj_id = -1 then
    (if method = "custom" then some (s.add_walls_custom n buf) else some s)
  else if obj_id = -2 then
    (if method = "custom" then some (s.add_lights_custom n buf rs) else some s)
  else if obj_id = -3 then
    (if method = "custom" then some (s.add_parks_custom n buf) else some s)
  else if obj_id = -4 then
    (if method = "custom" then some (s.add_buildings_custom n buf) else some s)
  else if obj_id = 0 then
    (if method = "random" then some (s.add_cars (blanks.take n))
     else if method = "custom" then
       some (s.add_cars ((List.range n).map
         (fun i => Position.mk (ndAt2 buf 2 i 0) (ndAt2 buf 2 i 1))))
     else none)
  else
    some s

/-! ## Observation pipeline (`TransCity::get_observation`), feature part -/

/-- One loop writing the values `vs` into consecutive slots of `buf`
starting at offset `k` (as `Agent::get_embedding(ptr, n)` does into the
head of the agent's feature slice).  `List.set` past the end is a no-op,
matching nothing the claims rely on. -/
def writeAt : List Int → Nat → List Int → List Int
  | buf, _, [] => buf
  | buf, k, v :: vs => writeAt (buf.set k v) (k + 1) vs

/-- Modelled from the spec: `Agent::get_embedding(buffer, embedding_size)`
(missing header) writes the agent's "fixed-size opaque embedding" — the
first `embedding_size` entries of the agent's embedding data (0 past its
stored values) — into the head of the buffer. -/
def Agent.get_embedding (a : Agent) (buf : List Int) (embSize : Nat) : List Int :=
  writeAt buf 0 (List.ofFn (fun i : Fin embSize => a.embedding.getD i.1 0))

/-- One agent's feature slice as written by the loop body of
`TransCity::get_observation`: after the `memset` zero-fill,
(1) `agent->get_embedding(base, embedding_size)`;
(2) `feature_buffer.at(i, embedding_size + agent->get_action()) = 1`;
(3) `feature_buffer.at(i, embedding_size + n_action) = agent->get_last_reward()`;
(4) `feature_buffer.at(i, embedding_size + n_action + 1) = pos.x - goal.x`;
(5) `feature_buffer.at(i, embedding_size + n_action + 2) = pos.y - goal.y`. -/
def TransCity.feature_row (s : TransCity) (a : Agent) : List Int :=
  let base := List.replicate s.get_feature_size_ 0
  let b1 := a.get_embedding base s.embedding_size
  let b2 := b1.set (s.embedding_size + a.action) 1
  let b3 := b2.set (s.embedding_size + ACT_NUM) a.last_reward
  let b4 := b3.set (s.embedding_size + ACT_NUM + 1) (a.pos.x - a.goal.x)
  b4.set (s.embedding_size + ACT_NUM + 2) (a.pos.y - a.goal.y)

/-- The flat feature buffer `linear_buffers[1]` after
`TransCity::get_observation`: agent `i`'s slice sits at offset
`i * feature_size` (the per-agent stride is `get_feature_size_`). -/
def TransCity.get_observation_features (s : TransCity) : List Int :=
  (s.agents.map s.feature_row).flatten

/-! ## Driver-visible lifecycle sequences (for the id claims) -/

/-- Marks the `i`-th agent dead, leaving every other field (in particular
the id) untouched.  The Simulation Step is the component that flips the
liveness flag (spec §4.5; `step` is a stub in the source), so death marks
are modelled as an environment action interleavable with `add_object` and
`clear_dead`. -/
def setDead : List Agent → Nat → List Agent
  | [], _ => []
  | a :: rest, 0 => { a with dead := true } :: rest
  | a :: rest, Nat.succ i => a :: setDead rest i

/-- The calls a driver can interleave between episodes that touch the
agent list: car injection (either placement method), compaction, and the
environment marking an agent dead. -/
inductive Op where
  | addCustomCars (n : Nat) (buf : List Int)
  | addRandomCars (n : Nat) (blanks : List Position)
  | clearDead
  | markDead (i : Nat)

/-- Applies one driver call to the engine state.  Car injection goes
through `TransCity.add_object` with the matching category/method. -/
def applyOp (s : TransCity) : Op → TransCity
  | Op.addCustomCars n buf =>
      (s.add_object 0 n "custom" buf [] []).getD s
  | Op.addRandomCars n blanks =>
      (s.add_object 0 n "random" [] [] blanks).getD s
  | Op.clearDead => s.clear_dead
  | Op.markDead i => { s with agents := setDead s.agents i }

/-- Runs a sequence of driver calls from the given state. -/
def runOps (s : TransCity) (ops : List Op) : TransCity :=
  ops.foldl applyOp s

/-- The id sequence of an agent list, in list (insertion) order. -/
def agentIds (l : List Agent) : List Int :=
  l.map Agent.id

/-- The id bookkeeping invariant: ids strictly increase in insertion
order and every id sits below the creation counter. -/
def IdInv (s : TransCity) : Prop :=
  (agentIds s.agents).Pairwise (· < ·) ∧ ∀ x ∈ agentIds s.agents, x < s.id_counter

/-! ## Concrete states used to evaluate the engine -/

/-- Two cars injected with `"custom"` placement at (1,2) and (3,4). -/
def twoCarState : TransCity :=
  (TransCity.init.add_object 0 2 "custom" [1, 2, 3, 4] [] []).getD TransCity.init

/-- One light at (3,4), orientation 1, offset 0, engine draw 7
(interval = 7 tmod 10 + 10 = 17). -/
def lightState : TransCity :=
  (TransCity.init.add_object (-2) 1 "custom" [3, 4, 1, 0] [7] []).getD TransCity.init

/-- One light injected while the engine cast yields `-5` (a 32-bit engine
output `≥ 2^31` cast to `int`): the drawn interval is
`(-5) tmod 10 + 10 = 5`. -/
def badLightState : TransCity :=
  (TransCity.init.add_object (-2) 1 "custom" [3, 4, 1, 0] [-5] []).getD TransCity.init

/-- Three walls injected at (3,4), (5,6), (7,8). -/
def wallState : TransCity :=
  (TransCity.init.add_object (-1) 3 "custom" [3, 4, 5, 6, 7, 8] [] []).getD TransCity.init

/-- The agent used to evaluate the observation pipeline: position (3,4),
goal (10,2), last action 1, last reward 9, embedding [5,6]. -/
def obsAgent : Agent :=
  { id := 0, pos := ⟨3, 4⟩, goal := ⟨10, 2⟩, action := 1,
    last_reward := 9, reward := 0, dead := false, embedding := [5, 6] }

/-- One state with `embedding_size = 2` holding only `obsAgent`
(feature size `2 + 5 + 1 + 2 = 10`). -/
def obsState : TransCity :=
  { TransCity.init with embedding_size := 2, agents := [obsAgent] }

/-! ## Compaction (`clear_dead`) -/

/-- The compaction loop keeps exactly the survivors, in their original
relative order, with the reward accumulator re-initialised. -/
theorem clearDeadLoop_eq_filter (l : List Agent) :
    clearDeadLoop l = (l.filter (fun a => !a.dead)).map Agent.init_reward := by
  induction l with
  | nil => rfl
  | cons a rest ih =>
      by_cases h : a.dead <;> simp [clearDeadLoop, h, ih]

/-- Survivor count plus dead count is the original population size. -/
theorem clearDeadLoop_length (l : List Agent) :
    (clearDeadLoop l).length + (l.filter (fun a => a.dead)).length = l.length := by
  induction l with
  | nil => rfl
  | cons a rest ih =>
      by_cases h : a.dead <;> simp [clearDeadLoop, h] <;> omega

/-- Claim C4: `clear_dead` is a single-pass compaction: the surviving list is
exactly the dead-flag-cleared agents in their original relative order,
each with its reward accumulator reset to the neutral value, and the
population size reported by `get_info("num")` drops by exactly the
number of dead-flagged agents. -/
theorem clear_dead_single_pass_compaction (s : TransCity) :
    s.clear_dead.agents = (s.agents.filter (fun a => !a.dead)).map Agent.init_reward ∧
    (∀ a ∈ s.clear_dead.agents, a.reward = 0) ∧
    s.clear_dead.get_info_num 0 =
      s.get_info_num 0 - ((s.agents.filter (fun a => a.dead)).length : Int) := by
  refine ⟨clearDeadLoop_eq_filter s.agents, ?_, ?_⟩
  · intro a ha
    rw [show s.clear_dead.agents = clearDeadLoop s.agents from rfl,
      clearDeadLoop_eq_filter] at ha
    rcases List.mem_map.1 ha with ⟨b, _, rfl⟩
    rfl
  · have h := clearDeadLoop_length s.agents
    show ((clearDeadLoop s.agents).length : Int) = (s.agents.length : Int) - _
    omega

/-- Evaluates C4 on a concrete population: with the first of two agents
marked dead, `clear_dead` keeps one agent (reward reset to 0) and the
reported count drops from 2 to 1. -/
theorem clear_dead_single_pass_compaction_witness :
    (({ twoCarState with agents := setDead twoCarState.agents 0 }).clear_dead.agents.getD 0
        obsAgent).reward = 0 ∧
    ({ twoCarState with agents := setDead twoCarState.agents 0 }).clear_dead.get_info_num 0
        = 1 := by
  have h := clear_dead_single_pass_compaction
    { twoCarState with agents := setDead twoCarState.agents 0 }
  refine ⟨h.2.1 _ ?_, ?_⟩
  · decide
  · rw [h.2.2]
    decide

/-- Claim C10: `get_info(car, "num")` reports the raw length of the agent
list — dead-flagged agents included — and only after `clear_dead` does
it equal the number of agents whose dead flag was unset. -/
theorem num_counts_dead_until_clear_dead (s : TransCity) :
    s.get_info_num 0 = (s.agents.length : Int) ∧
    s.clear_dead.get_info_num 0 =
      ((s.agents.filter (fun a => !a.dead)).length : Int) := by
  refine ⟨rfl, ?_⟩
  show ((clearDeadLoop s.agents).length : Int) = _
  rw [clearDeadLoop_eq_filter, List.length_map]

/-- Evaluates C10 on a concrete population: one live and one dead agent;
`num` is 2 before compaction and 1 after. -/
theorem num_counts_dead_until_clear_dead_witness :
    (let s := { twoCarState with agents := setDead twoCarState.agents 1 };
      s.get_info_num 0 = 2 ∧ s.clear_dead.get_info_num 0 = 1) := by
  have h := num_counts_dead_until_clear_dead
    { twoCarState with agents := setDead twoCarState.agents 1 }
  exact ⟨by decide, h.2.trans (by decide)⟩

/-! ## `reset` (claim C2) and `step` (claim C3) -/

/-- Counterexample to C2: after injecting two cars and calling `reset`,
`get_info(car, "num")` reports 2, not 0 — `reset` deletes the agent
objects without shrinking the `agents` vector. -/
theorem reset_reports_previous_count_not_zero :
    twoCarState.reset.get_info_num 0 = 2 ∧ twoCarState.reset.get_info_num 0 ≠ 0 := by
  decide

/-- Claim C2 as amended:  `reset` zeroes `id_counter`, reseeds the map from the
recorded wall list and drops agent occupancy, but never shrinks the agent
list, so `get_info(car, "num")` still reports the pre-reset population
size and the bulk per-agent calls still iterate over that many (freed)
entries. -/
theorem reset_keeps_agent_list_length (s : TransCity) :
    s.reset.get_info_num 0 = s.get_info_num 0 ∧
    s.reset.agents.length = s.agents.length ∧
    s.reset.id_counter = 0 ∧
    s.reset.mapWalls = s.walls ∧
    s.reset.mapAgents = [] :=
  ⟨rfl, rfl, rfl, rfl, rfl⟩

/-- Counterexample to C3: on a state holding one light (elapsed counter
0), `step` leaves the whole state — the light's elapsed counter
included — untouched and never writes the `done` flag. -/
theorem step_noop_on_concrete_state :
    lightState.step 0 = (lightState, 0) ∧
    (lightState.step 0).1.lights.map TrafficLight.elapsed = [0] := by
  decide

/-- Claim C3 as amended:  `TransCity::step` has an empty body: it is a no-op on
the simulation state (the scheduler is not advanced) and it never
assigns the `done` output. -/
theorem step_is_noop (s : TransCity) (done : Int) :
    s.step done = (s, done) :=
  rfl

/-! ## Feature-vector layout (claims C5 and C9) -/

/-- Writing with `writeAt` never changes the buffer length. -/
theorem writeAt_length (vs : List Int) : ∀ (buf : List Int) (k : Nat),
    (writeAt buf k vs).length = buf.length := by
  induction vs with
  | nil => intro buf k; rfl
  | cons v vs ih => intro buf k; rw [writeAt, ih, List.length_set]

/-- Reading back the slot a `List.set` just wrote. -/
theorem getD_set_self (l : List Int) (i : Nat) (v : Int) (h : i < l.length) :
    (l.set i v).getD i 0 = v := by
  rw [List.getD_eq_getElem _ _ (by simpa using h), List.getElem_set_self]

/-- Any `List.set` leaves every other slot unchanged. -/
theorem getD_set_ne (l : List Int) (i j : Nat) (v : Int) (hne : i ≠ j)
    (hj : j < l.length) :
    (l.set i v).getD j 0 = l.getD j 0 := by
  rw [List.getD_eq_getElem _ _ (by simpa using hj), List.getD_eq_getElem _ _ hj]
  exact List.getElem_set_ne hne _

/-- The per-agent feature slice always has length `get_feature_size_`. -/
theorem feature_row_length (s : TransCity) (a : Agent) :
    (s.feature_row a).length = s.get_feature_size_ := by
  simp only [TransCity.feature_row, Agent.get_embedding, List.length_set,
    writeAt_length, List.length_replicate]

/-- Claim C5 as amended:  In every agent's feature slice, the entry right after
the one-hot action block is the last reward, and the two entries after it
— the final two of the vector — are the goal difference computed as
`pos.x - goal.x` and `pos.y - goal.y` (current position minus goal, not
goal minus position). -/
theorem feature_tail_is_pos_minus_goal (s : TransCity) (a : Agent) :
    (s.feature_row a).getD (s.embedding_size + ACT_NUM + 1) 0 = a.pos.x - a.goal.x ∧
    (s.feature_row a).getD (s.embedding_size + ACT_NUM + 2) 0 = a.pos.y - a.goal.y ∧
    (s.feature_row a).getD (s.embedding_size + ACT_NUM) 0 = a.last_reward := by
  have hb1 : (Agent.get_embedding a (List.replicate s.get_feature_size_ 0)
      s.embedding_size).length = s.get_feature_size_ := by
    simp only [Agent.get_embedding, writeAt_length, List.length_replicate]
  have hfs : s.get_feature_size_ = s.embedding_size + ACT_NUM + 1 + 2 := rfl
  simp only [TransCity.feature_row]
  refine ⟨?_, ?_, ?_⟩
  · rw [getD_set_ne _ _ _ _ (by omega) (by simp only [List.length_set, hb1]; omega),
      getD_set_self _ _ _ (by simp only [List.length_set, hb1]; omega)]
  · rw [getD_set_self _ _ _ (by simp only [List.length_set, hb1]; omega)]
  · rw [getD_set_ne _ _ _ _ (by omega) (by simp only [List.length_set, hb1]; omega),
      getD_set_ne _ _ _ _ (by omega) (by simp only [List.length_set, hb1]; omega),
      getD_set_self _ _ _ (by simp only [List.length_set, hb1]; omega)]

/-- Counterexample to C5: for the agent at (3,4) with goal (10,2) the
feature buffer ends with `(-7, 2)` — `pos - goal` — whereas the claim's
`goalX - posX` would be `7`. -/
theorem goal_diff_sign_flipped :
    obsState.get_observation_features = [5, 6, 0, 1, 0, 0, 0, 9, -7, 2] ∧
    ¬ (obsState.get_observation_features.getD (obsState.embedding_size + ACT_NUM + 1) 0
        = obsAgent.goal.x - obsAgent.pos.x) := by
  decide

/-- Helper for the stride claim: slicing a flattening of equal-length
rows at offset `i * fs` recovers row `i`. -/
theorem flatten_slice (fs : Nat) : ∀ (L : List (List Int)) (i : Nat)
    (hi : i < L.length), (∀ r ∈ L, r.length = fs) →
    (L.flatten.drop (i * fs)).take fs = L.get ⟨i, hi⟩ := by
  intro L
  induction L with
  | nil => intro i hi _; simp at hi
  | cons r rest ih =>
      intro i hi hlen
      have hr : r.length = fs := hlen r (List.mem_cons_self r rest)
      cases i with
      | zero =>
          simp only [List.flatten_cons, Nat.zero_mul, List.drop_zero, List.get]
          rw [← hr, List.take_left]
      | succ j =>
          have hstep : (j + 1) * fs = r.length + j * fs := by rw [hr]; ring
          simp only [List.flatten_cons, List.get]
          rw [hstep, ← List.drop_drop, List.drop_left]
          exact ih j (by simpa using hi) (fun q hq => hlen q (List.mem_cons_of_mem r hq))

/-- Claim C9: `get_info("feature_space")` reports
`embedding_size + ACT_NUM + 1 + 2`, every per-agent feature slice has
exactly that length, and that same value is the stride of the flat
feature buffer `get_observation` fills: agent `i`'s slice starts at
offset `i * feature_size`. -/
theorem feature_space_size_and_stride (s : TransCity) :
    s.get_info_feature_space = s.embedding_size + ACT_NUM + 1 + 2 ∧
    (∀ a, (s.feature_row a).length = s.get_info_feature_space) ∧
    ∀ (i : Nat) (hi : i < s.agents.length),
      (s.get_observation_features.drop (i * s.get_info_feature_space)).take
        s.get_info_feature_space = s.feature_row (s.agents.get ⟨i, hi⟩) := by
  refine ⟨rfl, fun a => feature_row_length s a, fun i hi => ?_⟩
  have h := flatten_slice s.get_info_feature_space (s.agents.map s.feature_row) i
    (by simpa using hi)
    (by intro q hq; rcases List.mem_map.1 hq with ⟨a, _, rfl⟩; exact feature_row_length s a)
  rw [TransCity.get_observation_features, h]
  simp only [List.get_eq_getElem, List.getElem_map]

/-- Evaluates C9 on `obsState`: the single agent's slice (stride 10,
offset 0) is exactly its feature row. -/
theorem feature_space_size_and_stride_witness :
    0 < obsState.agents.length ∧
    (obsState.get_observation_features.drop (0 * obsState.get_info_feature_space)).take
      obsState.get_info_feature_space
      = obsState.feature_row (obsState.agents.get ⟨0, by decide⟩) :=
  ⟨by decide, (feature_space_size_and_stride obsState).2.2 0 (by decide)⟩

/-! ## Traffic-light interval draw (claim C6) -/

/-- Counterexample to C6: with `interval_min = 10`, `interval_max = 20`
and a negative cast engine value, the light created by `add_object` gets
interval 5, violating `interval_min ≤ interval`. -/
theorem light_interval_below_min_on_negative_draw :
    badLightState.lights.map TrafficLight.interval = [5] ∧
    ¬ (badLightState.interval_min ≤ (5 : Int)) := by
  decide

/-- Claim C6 as amended:  Each light's interval is drawn once at creation as
`castInt(engine()) % (interval_max - interval_min) + interval_min`
(truncated C++ modulo); whenever the cast engine values are nonnegative
(and `interval_min < interval_max`) every freshly created light satisfies
`interval_min ≤ interval < interval_max`.  (Negative cast values land
below `interval_min`, and the modulo reduction is not exactly uniform.) -/
theorem light_interval_in_range_of_nonneg_draws (s : TransCity) (n : Nat)
    (buf rs : List Int) (hiv : s.interval_min < s.interval_max)
    (hr : ∀ i : Nat, 0 ≤ rs.getD i 0) :
    (s.add_lights_custom n buf rs).lights.length = s.lights.length + n ∧
    ∀ l ∈ (s.add_lights_custom n buf rs).lights.drop s.lights.length,
      s.interval_min ≤ l.interval ∧ l.interval < s.interval_max := by
  constructor
  · simp [TransCity.add_lights_custom]
  · intro l hl
    simp only [TransCity.add_lights_custom] at hl
    rw [List.drop_left] at hl
    rcases List.mem_map.1 hl with ⟨i, _, rfl⟩
    have h1 : 0 ≤ Int.tmod (rs.getD i 0) (s.interval_max - s.interval_min) :=
      Int.tmod_nonneg _ (hr i)
    have h2 : Int.tmod (rs.getD i 0) (s.interval_max - s.interval_min) <
        s.interval_max - s.interval_min :=
      Int.tmod_lt_of_pos _ (by omega)
    simp only [light_interval_draw]
    constructor <;> omega

/-- Evaluates C6 (amended) on a concrete injection: draw 7 with the
default `[10, 20)` bounds gives interval 17, inside the bounds. -/
theorem light_interval_range_witness :
    (let l := (TransCity.init.add_lights_custom 1 [3, 4, 1, 0] [7]).lights.getD 0
        (TrafficLight.mk ⟨0, 0⟩ 0 0 0 0);
      TransCity.init.interval_min ≤ l.interval ∧ l.interval < TransCity.init.interval_max) := by
  refine (light_interval_in_range_of_nonneg_draws TransCity.init 1 [3, 4, 1, 0] [7]
    (by decide) (fun i => ?_)).2 _ (by decide)
  cases i with
  | zero => decide
  | succ j => rw [List.getD_eq_default _ _ (by simp)]

/-! ## `add_object` dispatch (claim C7) -/

/-- Counterexample to C7: an unknown category id (5) and an unknown
method for a known static category (wall with `"bogus"`) both return
normally with the state untouched — no abort (`none`), no effect. -/
theorem unknown_category_and_method_silently_ignored :
    TransCity.init.add_object 5 1 "custom" [] [] [] = some TransCity.init ∧
    TransCity.init.add_object (-1) 1 "bogus" [1, 2] [] [] = some TransCity.init ∧
    TransCity.init.add_object 5 1 "custom" [] [] [] ≠ none := by
  decide

/-- Claim C7 as amended:  Only the car category's unknown-method branch reaches
`LOG(FATAL)`; an unrecognised category id falls off the `if` chain, and
the four static categories have no `else` on their method test, so those
calls are silently ignored and the state is returned unchanged. -/
theorem add_object_fatal_only_for_unknown_car_method
    (s : TransCity) (obj_id : Int) (n : Nat) (method : String)
    (buf rs : List Int) (blanks : List Position) :
    (obj_id = 0 → method ≠ "random" → method ≠ "custom" →
      s.add_object obj_id n method buf rs blanks = none) ∧
    (obj_id ≠ -1 → obj_id ≠ -2 → obj_id ≠ -3 → obj_id ≠ -4 → obj_id ≠ 0 →
      s.add_object obj_id n method buf rs blanks = some s) ∧
    ((obj_id = -1 ∨ obj_id = -2 ∨ obj_id = -3 ∨ obj_id = -4) → method ≠ "custom" →
      s.add_object obj_id n method buf rs blanks = some s) := by
  refine ⟨?_, ?_, ?_⟩
  · rintro rfl h1 h2
    simp [TransCity.add_object, h1, h2]
  · intro h1 h2 h3 h4 h5
    simp [TransCity.add_object, h1, h2, h3, h4, h5]
  · rintro (rfl | rfl | rfl | rfl) hm <;> simp [TransCity.add_object, hm]

/-- Evaluates C7 (amended): `"frobnicate"` cars abort; category 7 and a
`"random"` park are silently ignored. -/
theorem add_object_fatal_only_for_unknown_car_method_witness :
    TransCity.init.add_object 0 1 "frobnicate" [] [] [] = none ∧
    TransCity.init.add_object 7 1 "custom" [] [] [] = some TransCity.init ∧
    TransCity.init.add_object (-3) 1 "random" [] [] [] = some TransCity.init :=
  ⟨(add_object_fatal_only_for_unknown_car_method TransCity.init 0 1 "frobnicate"
      [] [] []).1 rfl (by decide) (by decide),
   (add_object_fatal_only_for_unknown_car_method TransCity.init 7 1 "custom"
      [] [] []).2.1 (by decide) (by decide) (by decide) (by decide) (by decide),
   (add_object_fatal_only_for_unknown_car_method TransCity.init (-3) 1 "random"
      [] [] []).2.2 (Or.inr (Or.inr (Or.inl rfl))) (by decide)⟩

/-! ## Wall recording (claim C8) -/

/-- Claim C8 (code bug): the Spatial Map is marked at exactly the injected cells, but the
recorded wall list — fed by the malformed `Position{buf.at(i, 0,
buf.at(i, 1))}` at `TransCity.cc:76` — receives different positions, so
`reset` does not reseed the map with the injected wall cells. -/
theorem wall_record_diverges_from_map_cells :
    wallState.mapWalls = [⟨3, 4⟩, ⟨5, 6⟩, ⟨7, 8⟩] ∧
    wallState.walls = [⟨7, 0⟩, ⟨0, 0⟩, ⟨0, 0⟩] ∧
    wallState.walls ≠ wallState.mapWalls ∧
    wallState.reset.mapWalls ≠ wallState.mapWalls := by
  decide

/-! ## Agent id uniqueness (claim C1) -/

/-- The final counter after creating one agent per position. -/
theorem addCarsLoop_counter (ps : List Position) : ∀ idc : Int,
    (addCarsLoop idc ps).2 = idc + ps.length := by
  induction ps with
  | nil => intro idc; simp [addCarsLoop]
  | cons p ps ih =>
      intro idc
      show (addCarsLoop (idc + 1) ps).2 = _
      rw [ih, List.length_cons]
      push_cast
      ring

/-- The ids handed out by the creation loop are the consecutive block
starting at the incoming counter. -/
theorem addCarsLoop_ids (ps : List Position) : ∀ idc : Int,
    agentIds (addCarsLoop idc ps).1
      = (List.range ps.length).map (fun (k : Nat) => idc + (k : Int)) := by
  induction ps with
  | nil => intro idc; simp [addCarsLoop, agentIds]
  | cons p ps ih =>
      intro idc
      show idc :: agentIds (addCarsLoop (idc + 1) ps).1 = _
      rw [ih, List.length_cons, List.range_succ_eq_map, List.map_cons, List.map_map]
      refine congrArg₂ _ (by simp) (List.map_congr_left ?_)
      intro k _
      show (idc + 1) + (k : Int) = idc + ((k + 1 : Nat) : Int)
      push_cast
      ring

/-- Any block of consecutive ids is strictly increasing, and each id lies
in `[idc, idc + n)`. -/
theorem consecutive_ids_facts (idc : Int) (n : Nat) :
    ((List.range n).map (fun (k : Nat) => idc + (k : Int))).Pairwise (· < ·) ∧
    ∀ x ∈ (List.range n).map (fun (k : Nat) => idc + (k : Int)),
      idc ≤ x ∧ x < idc + n := by
  constructor
  · refine List.Pairwise.map _ (fun a b hab => ?_) (List.pairwise_lt_range n)
    omega
  · intro x hx
    rcases List.mem_map.1 hx with ⟨k, hk, rfl⟩
    have := List.mem_range.1 hk
    omega

/-- Injection via `add_cars` preserves the id invariant: the freshly created block sits
strictly above every existing id, and the counter moves past it. -/
theorem IdInv_add_cars (s : TransCity) (ps : List Position) (h : IdInv s) :
    IdInv (s.add_cars ps) := by
  have hids : agentIds (s.add_cars ps).agents
      = agentIds s.agents
        ++ (List.range ps.length).map (fun (k : Nat) => s.id_counter + (k : Int)) := by
    show agentIds (s.agents ++ (addCarsLoop s.id_counter ps).1) = _
    rw [agentIds, List.map_append, ← agentIds, ← agentIds, addCarsLoop_ids]
  have hctr : (s.add_cars ps).id_counter = s.id_counter + ps.length :=
    addCarsLoop_counter ps s.id_counter
  have hfacts := consecutive_ids_facts s.id_counter ps.length
  constructor
  · rw [hids]
    rw [List.pairwise_append]
    refine ⟨h.1, hfacts.1, fun a ha b hb => ?_⟩
    have h1 := h.2 a ha
    have h2 := (hfacts.2 b hb).1
    omega
  · intro x hx
    rw [hids] at hx
    rw [hctr]
    rcases List.mem_append.1 hx with hx | hx
    · have := h.2 x hx
      omega
    · exact (hfacts.2 x hx).2

/-- Compaction only deletes entries: the surviving id sequence is a
sublist of the original one (ids are stable and keep their order). -/
theorem clearDeadLoop_ids_sublist (l : List Agent) :
    (agentIds (clearDeadLoop l)).Sublist (agentIds l) := by
  induction l with
  | nil => simp [clearDeadLoop]
  | cons a rest ih =>
      by_cases hd : a.dead
      · simp only [clearDeadLoop, hd, if_true]
        exact ih.cons a.id
      · simp only [clearDeadLoop, hd, if_false]
        exact ih.cons₂ a.id

/-- Marking an agent dead never touches an id. -/
theorem setDead_ids (l : List Agent) : ∀ i : Nat, agentIds (setDead l i) = agentIds l := by
  induction l with
  | nil => intro i; rfl
  | cons a rest ih =>
      intro i
      cases i with
      | zero => rfl
      | succ j =>
          show a.id :: agentIds (setDead rest j) = _
          rw [ih j]
          rfl

/-- Every driver call preserves the id invariant. -/
theorem IdInv_applyOp (s : TransCity) (op : Op) (h : IdInv s) : IdInv (applyOp s op) := by
  cases op with
  | addCustomCars n buf => exact IdInv_add_cars s _ h
  | addRandomCars n blanks => exact IdInv_add_cars s _ h
  | clearDead =>
      have hsub := clearDeadLoop_ids_sublist s.agents
      exact ⟨h.1.sublist hsub, fun x hx => h.2 x (hsub.mem hx)⟩
  | markDead i =>
      constructor
      · show (agentIds (setDead s.agents i)).Pairwise (· < ·)
        rw [setDead_ids]
        exact h.1
      · intro x hx
        show x < s.id_counter
        have hx2 : x ∈ agentIds (setDead s.agents i) := hx
        rw [setDead_ids] at hx2
        exact h.2 x hx2

/-- The id invariant holds along every driver call sequence. -/
theorem IdInv_runOps (ops : List Op) : ∀ s : TransCity, IdInv s → IdInv (runOps s ops) := by
  induction ops with
  | nil => intro s h; exact h
  | cons op ops ih => intro s h; exact ih (applyOp s op) (IdInv_applyOp s op h)

/-- Claim C1: along every sequence of car injections (`"random"` or
`"custom"`), death marks and `clear_dead` compactions, the agent ids are
strictly increasing in insertion order — so pairwise distinct — and
compaction keeps each survivor's id unchanged, in order (the surviving
id sequence is a sublist of the previous one). -/
theorem car_ids_strictly_increasing_and_unique (ops : List Op) :
    (agentIds (runOps TransCity.init ops).agents).Pairwise (· < ·) ∧
    (agentIds (runOps TransCity.init ops).agents).Nodup ∧
    ∀ s : TransCity, (agentIds s.clear_dead.agents).Sublist (agentIds s.agents) := by
  have h := IdInv_runOps ops TransCity.init
    ⟨List.Pairwise.nil, by intro x hx; simp [agentIds, TransCity.init] at hx⟩
  exact ⟨h.1, h.1.imp (fun hlt => ne_of_lt hlt),
    fun s => clearDeadLoop_ids_sublist s.agents⟩

end TransCityModel
